import Mathlib

/-!
Verification of `src/addUpTo.js`, a benchmark script comparing an iterative
summation with the closed-form formula `n * (n + 1) / 2` over a fixed list of
inputs, timing both and checking result consistency.

The JavaScript number type is IEEE-754 binary64.  All integers of magnitude
below `2 ^ 53` are represented exactly, so on that domain the arithmetic of the
two strategies is exact integer arithmetic; we embed that domain with `ℕ`.
Where a claim depends on behaviour beyond the exact range (the product
`n * (n + 1)` at the largest tested value exceeds `2 ^ 53`), we model binary64
rounding of integer values explicitly (`fl64` below).  Where a claim concerns
negative or fractional inputs, we embed the loop over `ℚ`.
-/

/-- Array of tested values for performance comparison (`TESTED_VALUES`,
src/addUpTo.js lines 11-14). -/
def TESTED_VALUES : List ℕ :=
  [1, 10, 100, 1000, 10000, 100000, 1000000, 10000000, 100000000, 1000000000,
   9000000000]

/-- Iterative summation (`sumIterative`, src/addUpTo.js lines 40-46), embedded
in exact arithmetic over `ℕ`: the loop `for (let i = 1; i <= n; i++) total += i`
executes its body exactly for `i = 1, …, n`, accumulating a running total that
starts at `0`; we embed it as a left fold over that range. -/
def sumIterative (n : ℕ) : ℕ :=
  (List.range' 1 n).foldl (· + ·) 0

/-- Closed-form summation (`sumFormula`, src/addUpTo.js lines 54-56), embedded
in exact arithmetic over `ℕ`: `(n * (n + 1)) / 2`.  The `ℕ` division is exact
here because `n * (n + 1)` is always even. -/
def sumFormula (n : ℕ) : ℕ :=
  n * (n + 1) / 2

/-- The fold accumulating `1 + 2 + ⋯ + n` doubles to `n * (n + 1)`. -/
lemma two_mul_sumIterative (n : ℕ) : 2 * sumIterative n = n * (n + 1) := by
  induction n with
  | zero => rfl
  | succ n ih =>
    unfold sumIterative at *
    rw [List.range'_concat, List.foldl_append]
    simp only [List.foldl_cons, List.foldl_nil, one_mul]
    linarith [ih]

/-- The running total after the whole loop is the closed formula. -/
lemma sumIterative_closed (n : ℕ) : sumIterative n = n * (n + 1) / 2 := by
  have h := two_mul_sumIterative n
  omega

/-- C1: in exact arithmetic (which binary64 provides on the whole domain where
no intermediate exceeds `2 ^ 53`), the loop-accumulation strategy and the
closed-form strategy are the same function: `sumIterative n = sumFormula n`
for every non-negative integer `n`. -/
theorem sumIterative_eq_sumFormula (n : ℕ) : sumIterative n = sumFormula n := by
  rw [sumIterative_closed]; rfl

/-- C1 witness: the equivalence at the concrete input `100`. -/
theorem sumIterative_eq_sumFormula_witness :
    sumIterative 100 = sumFormula 100 :=
  sumIterative_eq_sumFormula 100

/-- C5: `sumIterative` returns the sum `1 + 2 + ⋯ + n` (the sum of
`Finset.range (n + 1)`), and in particular `sumIterative 10 = 55` and
`sumIterative 100 = 5050`. -/
theorem sumIterative_is_gauss_sum :
    (∀ n : ℕ, sumIterative n = ∑ i ∈ Finset.range (n + 1), i) ∧
      sumIterative 10 = 55 ∧ sumIterative 100 = 5050 := by
  refine ⟨fun n => ?_, by decide, by decide⟩
  have h := two_mul_sumIterative n
  have h2 : (∑ i ∈ Finset.range (n + 1), i) * 2 = (n + 1) * n := by
    simpa using Finset.sum_range_id_mul_two (n + 1)
  have h3 : (∑ i ∈ Finset.range (n + 1), i) * 2 = n * (n + 1) := by
    rw [h2, Nat.mul_comm]
  omega

/-- C6: both strategies return `0` at the zero bound. -/
theorem sum_strategies_zero_bound : sumIterative 0 = 0 ∧ sumFormula 0 = 0 := by
  decide

/-! ## Binary64 model

JavaScript numbers are IEEE-754 binary64: 53 significand bits.  A non-negative
integer `x < 2 ^ 53` is represented exactly; a larger integer (far below the
overflow threshold `2 ^ 1024`, which is never approached here) is rounded to
the nearest multiple of `2 ^ k` where `k` is the least number of halvings
bringing `x` below `2 ^ 53` (ties to even significand).  `fl64` computes that
rounding, which is exactly what a JavaScript arithmetic operator returns when
its mathematically exact result is the integer `x`. -/

/-- Least number of halvings bringing `x` below `2 ^ 53`, computed with the
first argument as fuel (any fuel `≥ log₂ x` gives the same answer; we pass `x`
itself). -/
def shiftCountAux : ℕ → ℕ → ℕ
  | 0, _ => 0
  | fuel + 1, x => if x < 2 ^ 53 then 0 else shiftCountAux fuel (x / 2) + 1

/-- Least `k` with `x / 2 ^ k < 2 ^ 53`; for `x ≥ 2 ^ 53` this is the binary64
unit-in-the-last-place exponent of `x`. -/
def shiftCount (x : ℕ) : ℕ := shiftCountAux x x

/-- Round the integer `x` to the nearest binary64 value (round-to-nearest,
ties-to-even), as an integer.  Exact below `2 ^ 53`; otherwise rounds to the
nearest multiple of the unit in the last place `2 ^ shiftCount x`. -/
def fl64 (x : ℕ) : ℕ :=
  if x < 2 ^ 53 then x
  else
    let g := 2 ^ shiftCount x
    let q := x / g
    let r := x % g
    if r < g / 2 then q * g
    else if g / 2 < r then (q + 1) * g
    else if q % 2 = 0 then q * g else (q + 1) * g

/-- `sumFormula` under JavaScript binary64 semantics, for non-negative integer
inputs `n` with `n + 1 < 2 ^ 53` (all tested values qualify): `n` and `n + 1`
are exact, the multiplication rounds its exact integer product through `fl64`,
and the final division by `2` is exact (the rounded product is even, and
halving a binary64 value of even significand-scale is exact), so it is `ℕ`
division here. -/
def sumFormulaJs (n : ℕ) : ℕ := fl64 (n * (n + 1)) / 2

/-- C2 counterexample: at the largest tested value `9000000000` the product
`9000000000 * 9000000001 = 81000000009000000000` exceeds `2 ^ 53`, its
unit in the last place is `2 ^ 14 = 16384`, and the remainder `6656 < 8192`
rounds down, so the code returns `40500000004499996672`, not the exact
`40500000004500000000`: the result is truncated by the binary64 rounding of
the multiplication. -/
theorem sumFormulaJs_not_exact_at_largest :
    sumFormulaJs 9000000000 = 40500000004499996672 ∧
      9000000000 * (9000000000 + 1) / 2 = 40500000004500000000 ∧
      sumFormulaJs 9000000000 ≠ 9000000000 * (9000000000 + 1) / 2 := by
  decide

/-- C2 (amended): the division by `2` is exact over the integers (since
`n * (n + 1)` is always even), and for every tested value except the largest,
`9000000000`, the whole computation is exact: `sumFormulaJs n` equals the
mathematical `n * (n + 1) / 2`.  At `9000000000` the multiplication itself
rounds (see the counterexample), so exactness fails there. -/
theorem sumFormulaJs_exact_on_tested (n : ℕ) (hmem : n ∈ TESTED_VALUES)
    (hne : n ≠ 9000000000) :
    sumFormulaJs n = n * (n + 1) / 2 ∧ 2 * (n * (n + 1) / 2) = n * (n + 1) := by
  have h : ∀ m ∈ TESTED_VALUES, m ≠ 9000000000 →
      (sumFormulaJs m = m * (m + 1) / 2 ∧
        2 * (m * (m + 1) / 2) = m * (m + 1)) := by decide
  exact h n hmem hne

/-- C2 witness: exactness at the concrete tested value `100`. -/
theorem sumFormulaJs_exact_on_tested_witness :
    sumFormulaJs 100 = 100 * (100 + 1) / 2 ∧
      2 * (100 * (100 + 1) / 2) = 100 * (100 + 1) :=
  sumFormulaJs_exact_on_tested 100 (by decide) (by decide)

/-- C4 counterexample: no tested value exceeds the 64-bit signed integer
range; the largest, `9000000000`, is far below `2 ^ 63 - 1`. -/
theorem testedValues_within_int64 :
    ¬ ∃ x ∈ TESTED_VALUES, 9223372036854775807 < x := by
  decide

/-- C4 (amended): the fixed input list is a strictly increasing sequence of
non-negative integers; every element fits in the 64-bit signed range, and at
least one element (`9000000000`) exceeds the 32-bit signed range
`2 ^ 31 - 1`. -/
theorem testedValues_sorted_and_bounded :
    List.Sorted (· < ·) TESTED_VALUES ∧
      (∀ x ∈ TESTED_VALUES, x ≤ 9223372036854775807) ∧
      (∃ x ∈ TESTED_VALUES, 2147483647 < x) := by
  decide

/-! ## Faster-method labeling

Src/addUpTo.js lines 65-66: `timeDifference` is the STRING produced by
`(iterativeResult.time - formulaResult.time).toFixed(6)`, and the label is
`timeDifference > 0 ? "Formula" : "Iterative"`, where JavaScript coerces the
string back to a number for the comparison.  `toFixed(6)` rounds the
difference to six decimal places, to the nearest multiple of `10 ^ (-6)` with
ties away from zero (ECMA-262 applies "pick the larger n" to the magnitude,
after extracting the sign); re-parsing the decimal string preserves the sign
exactly, which is all the comparison against `0` observes.  We embed durations
and differences as `ℚ`. -/

/-- Numeric value of `d.toFixed(6)`: `d` rounded to six decimal places,
half away from zero (`⌊x * 10 ^ 6 + 1 / 2⌋ / 10 ^ 6` on the magnitude `x`,
with the sign reattached). -/
def toFixed6 (d : ℚ) : ℚ :=
  if 0 ≤ d then (⌊d * 10 ^ 6 + 1 / 2⌋ : ℚ) / 10 ^ 6
  else -((⌊-d * 10 ^ 6 + 1 / 2⌋ : ℚ) / 10 ^ 6)

/-- Faster-method label (src/addUpTo.js lines 65-66): `"Formula"` when the
rounded difference `toFixed6 (iterativeTime - formulaTime)` compares greater
than `0`, otherwise `"Iterative"`. -/
def fasterMethod (iterativeTime formulaTime : ℚ) : String :=
  if 0 < toFixed6 (iterativeTime - formulaTime) then "Formula" else "Iterative"

/-- C3 counterexample: a synthetic pair where the iterative duration
`10 ^ (-7)` s strictly exceeds the closed-form duration `0`, yet the label is
`"Iterative"`, because `toFixed(6)` rounds the difference to `"0.000000"`,
which is not greater than `0`. -/
theorem fasterMethod_mislabels_tiny_positive_diff :
    (0 : ℚ) < (1 / 10000000 : ℚ) - 0 ∧
      fasterMethod (1 / 10000000) 0 = "Iterative" := by
  constructor
  · norm_num
  · have hfloor : ⌊((1 : ℚ) / 10000000 - 0) * 10 ^ 6 + 1 / 2⌋ = 0 := by
      rw [Int.floor_eq_zero_iff, Set.mem_Ico]
      constructor <;> norm_num
    have ht : toFixed6 ((1 : ℚ) / 10000000 - 0) = 0 := by
      unfold toFixed6
      rw [if_pos (by norm_num : (0:ℚ) ≤ 1 / 10000000 - 0), hfloor]
      norm_num
    unfold fasterMethod
    rw [ht]
    norm_num

/-- C3 (amended): the label is computed from the time difference rounded to
six decimal places by `toFixed(6)`, not from its raw sign: the label is
`"Formula"` exactly when `iterativeTime - formulaTime ≥ 1 / 2000000` (half a
microsecond, the least difference whose rounding is positive), and
`"Iterative"` exactly otherwise — in particular a negative difference is
always labelled `"Iterative"`, but so is a strictly positive difference below
half a microsecond. -/
theorem fasterMethod_label_iff (it fo : ℚ) :
    (fasterMethod it fo = "Formula" ↔ 1 / 2000000 ≤ it - fo) ∧
      (fasterMethod it fo = "Iterative" ↔ it - fo < 1 / 2000000) := by
  have key : 0 < toFixed6 (it - fo) ↔ 1 / 2000000 ≤ it - fo := by
    unfold toFixed6
    rcases le_or_lt 0 (it - fo) with h | h
    · rw [if_pos h, div_pos_iff_of_pos_right (by norm_num : (0:ℚ) < 10 ^ 6),
        Int.cast_pos, Int.floor_pos]
      constructor
      · intro h1; linarith
      · intro h1; linarith
    · rw [if_neg (not_le.mpr h)]
      constructor
      · intro hpos
        exfalso
        have h0 : (0:ℤ) ≤ ⌊-(it - fo) * 10 ^ 6 + 1 / 2⌋ :=
          Int.floor_nonneg.mpr (by nlinarith)
        have h1 : (0:ℚ) ≤ (⌊-(it - fo) * 10 ^ 6 + 1 / 2⌋ : ℚ) / 10 ^ 6 :=
          div_nonneg (by exact_mod_cast h0) (by norm_num)
        linarith
      · intro h1; exfalso; linarith
  unfold fasterMethod
  by_cases hc : 0 < toFixed6 (it - fo)
  · rw [if_pos hc]
    rw [key] at hc
    exact ⟨iff_of_true rfl hc, iff_of_false (by decide) (not_lt.mpr hc)⟩
  · rw [if_neg hc]
    rw [key] at hc
    push_neg at hc
    exact ⟨iff_of_false (by decide) (not_le.mpr hc), iff_of_true rfl hc⟩

/-! ## Consistency reporting -/

/-- The per-iteration consistency report (src/addUpTo.js lines 74-82): the
mismatch branch tests `iterativeResult.result !== formulaResult.result` and
prints both raw values; the other branch prints the consistent message with
the single shared value.  The `\x1b[..m` fragments are the ANSI colour codes
emitted by the script. -/
def consistencyMessage (a b : ℕ) : String :=
  if a ≠ b then
    "\x1b[31mWARNING: Results different! Iterative: " ++ toString a ++
      ", Formula: " ++ toString b ++ "\x1b[0m"
  else
    "\x1b[32mResults are consistent: " ++ toString a ++ "\x1b[0m"

/-- C8: equal results produce the consistent verdict; unequal results produce
the mismatch verdict whose message contains both raw result values. -/
theorem consistencyMessage_verdicts (a b : ℕ) :
    (a = b → consistencyMessage a b =
        "\x1b[32mResults are consistent: " ++ toString a ++ "\x1b[0m") ∧
      (a ≠ b → consistencyMessage a b =
        "\x1b[31mWARNING: Results different! Iterative: " ++ toString a ++
          ", Formula: " ++ toString b ++ "\x1b[0m") := by
  constructor
  · intro h; simp [consistencyMessage, h]
  · intro h; simp [consistencyMessage, h]

/-- C8 witness: the consistent verdict at `3 = 3` and the mismatch verdict at
`1 ≠ 2`. -/
theorem consistencyMessage_verdicts_witness :
    consistencyMessage 3 3 =
        "\x1b[32mResults are consistent: " ++ toString 3 ++ "\x1b[0m" ∧
      consistencyMessage 1 2 =
        "\x1b[31mWARNING: Results different! Iterative: " ++ toString 1 ++
          ", Formula: " ++ toString 2 ++ "\x1b[0m" :=
  ⟨(consistencyMessage_verdicts 3 3).1 rfl,
    (consistencyMessage_verdicts 1 2).2 (by decide)⟩

/-! ## Timing helper

Src/addUpTo.js lines 23-32: `measureExecTime(func, ...args)` reads
`performance.now()` (milliseconds), calls `func(...args)` once, reads
`performance.now()` again, and returns `{time: (end - start) / 1000, result}`
(seconds).  We embed the environment clock as a function `ℕ → ℚ` from
read-index to timestamp.  For the error-propagation part of the contract the
computation is embedded in the standard way for JavaScript's implicit
exceptions and side effects: it takes a state and returns `Except ε` of a
value paired with the successor state, so that "executed exactly once, never
retried" is observable as the final state being the one-call state. -/

/-- Measurement record: elapsed seconds and the wrapped computation's
result. -/
structure Measurement (α : Type) where
  time : ℚ
  result : α
deriving Repr, DecidableEq

/-- `measureExecTime` for a total computation (the case exercised by the
runner): reads the clock at index `c`, applies `func` to its argument, reads
the clock at index `c + 1`, and returns elapsed seconds with the result. -/
def measureExecTime {γ α : Type} (clock : ℕ → ℚ) (c : ℕ) (func : γ → α)
    (arg : γ) : Measurement α :=
  let start := clock c
  let result := func arg
  let stop := clock (c + 1)
  { time := (stop - start) / 1000, result := result }

/-- `measureExecTime` for a stateful, fallible computation: a thrown failure
aborts before the second clock read and propagates unchanged; a normal return
is wrapped in a `Measurement` together with the one-call final state. -/
def measureExecTimeE {σ ε α : Type} (clock : ℕ → ℚ)
    (func : σ → Except ε (α × σ)) (s : σ) : Except ε (Measurement α × σ) :=
  match func s with
  | Except.error e => Except.error e
  | Except.ok (result, s1) =>
      Except.ok ({ time := (clock 1 - clock 0) / 1000, result := result }, s1)

/-- C7: under a monotone clock, `measureExecTime` propagates a failure of the
wrapped computation unchanged, and on success returns the computation's value
unchanged together with a non-negative elapsed duration and the state reached
by exactly one invocation (no retry). -/
theorem measureExecTime_contract {σ ε α : Type} (clock : ℕ → ℚ)
    (func : σ → Except ε (α × σ)) (s : σ) (hmono : clock 0 ≤ clock 1) :
    (∀ e, func s = Except.error e →
        measureExecTimeE clock func s = Except.error e) ∧
      (∀ a s1, func s = Except.ok (a, s1) →
        measureExecTimeE clock func s =
            Except.ok ({ time := (clock 1 - clock 0) / 1000, result := a }, s1) ∧
          0 ≤ (clock 1 - clock 0) / 1000) := by
  constructor
  · intro e he
    unfold measureExecTimeE
    rw [he]
  · intro a s1 hok
    refine ⟨?_, div_nonneg (by linarith) (by norm_num)⟩
    unfold measureExecTimeE
    rw [hok]

/-- C7 witness: a constant clock and the computation returning `7` while
stepping the state from `0` to `1`. -/
theorem measureExecTime_contract_witness :
    measureExecTimeE (fun _ => (0 : ℚ))
        (fun s : ℕ => (Except.ok ((7 : ℕ), s + 1) : Except Unit (ℕ × ℕ))) 0 =
        Except.ok ({ time := ((0 : ℚ) - 0) / 1000, result := 7 }, 1) ∧
      0 ≤ ((0 : ℚ) - 0) / 1000 :=
  (measureExecTime_contract (fun _ => (0 : ℚ))
    (fun s : ℕ => (Except.ok ((7 : ℕ), s + 1) : Except Unit (ℕ × ℕ))) 0
    le_rfl).2 7 1 rfl

/-! ## The benchmark runner

Src/addUpTo.js lines 59-83: `TESTED_VALUES.forEach((N) => {...})` — for each
value in list order: print the header, time `sumIterative`, then time
`sumFormula`, print the time-difference line with the faster-method label,
then print the consistency verdict.  We embed the loop as structural
recursion over the list, threading the clock read-index (each iteration
performs four reads: two inside each `measureExecTime` call), and recording
one event per observable step. -/

/-- One observable step of the runner, in the order the script performs
them. -/
inductive Event where
  | tested (n : ℕ)
  | measured (method : String) (n : ℕ) (time : ℚ) (result : ℕ)
  | timeReport (n : ℕ) (label : String)
  | verdict (n : ℕ) (msg : String)
deriving Repr, DecidableEq

/-- The events of one `forEach` iteration at value `n`, with clock reads
starting at index `c`: header, iterative measurement (reads `c`, `c + 1`),
formula measurement (reads `c + 2`, `c + 3`), faster-method report,
consistency verdict. -/
def iterationTrace (clock : ℕ → ℚ) (c : ℕ) (n : ℕ) : List Event :=
  let iterativeResult := measureExecTime clock c sumIterative n
  let formulaResult := measureExecTime clock (c + 2) sumFormula n
  [Event.tested n,
   Event.measured "Iterative" n iterativeResult.time iterativeResult.result,
   Event.measured "Formula" n formulaResult.time formulaResult.result,
   Event.timeReport n (fasterMethod iterativeResult.time formulaResult.time),
   Event.verdict n (consistencyMessage iterativeResult.result formulaResult.result)]

/-- The `forEach` loop: each input's full iteration runs to completion before
the next input begins. -/
def runnerAux (clock : ℕ → ℚ) : List ℕ → ℕ → List Event
  | [], _ => []
  | n :: ns, c => iterationTrace clock c n ++ runnerAux clock ns (c + 4)

/-- The whole run: the loop over `TESTED_VALUES` starting at clock read 0. -/
def runnerTrace (clock : ℕ → ℚ) : List Event :=
  runnerAux clock TESTED_VALUES 0

/-- The recursion over any input list produces exactly the in-order
concatenation of the per-input blocks, the `i`-th block using clock reads
starting at `c + 4 * i`. -/
lemma runnerAux_eq_join (clock : ℕ → ℚ) (ns : List ℕ) (c : ℕ) :
    runnerAux clock ns c =
      ((List.range ns.length).map
        (fun i => iterationTrace clock (c + 4 * i) (ns.getD i 0))).flatten := by
  induction ns generalizing c with
  | nil => rfl
  | cons n ns ih =>
    show iterationTrace clock c n ++ runnerAux clock ns (c + 4) = _
    rw [ih (c + 4), List.length_cons, List.range_succ_eq_map, List.map_cons,
      List.flatten_cons, List.map_map]
    congr 1
    apply congrArg List.flatten
    apply List.map_congr_left
    intro i _
    show iterationTrace clock (c + 4 + 4 * i) (ns.getD i 0) =
      iterationTrace clock (c + 4 * (i + 1)) ((n :: ns).getD (i + 1) 0)
    rw [List.getD_cons_succ]
    have harith : c + 4 * (i + 1) = c + 4 + 4 * i := by ring
    rw [harith]

/-- C9: the run is the in-order concatenation of one complete block per
tested value (block `i` at clock reads `4 * i, …, 4 * i + 3`), and within
every block the header comes first, the iterative strategy is measured
(clock reads `c`, `c + 1`) strictly before the closed-form strategy (clock
reads `c + 2`, `c + 3`), and the reports close the block. -/
theorem runner_processes_in_order (clock : ℕ → ℚ) :
    runnerTrace clock =
      ((List.range TESTED_VALUES.length).map
        (fun i => iterationTrace clock (4 * i) (TESTED_VALUES.getD i 0))).flatten ∧
      ∀ c n, iterationTrace clock c n =
        [Event.tested n,
         Event.measured "Iterative" n ((clock (c + 1) - clock c) / 1000)
           (sumIterative n),
         Event.measured "Formula" n ((clock (c + 3) - clock (c + 2)) / 1000)
           (sumFormula n),
         Event.timeReport n (fasterMethod ((clock (c + 1) - clock c) / 1000)
           ((clock (c + 3) - clock (c + 2)) / 1000)),
         Event.verdict n (consistencyMessage (sumIterative n) (sumFormula n))] := by
  constructor
  · have h := runnerAux_eq_join clock TESTED_VALUES 0
    simpa using h
  · intro c n
    rfl

/-! ## Behaviour below the lower bound -/

/-- `sumIterative` on an arbitrary JavaScript number, embedded as `ℚ`: the
loop `for (let i = 1; i <= n; i++) total += i` runs its body exactly for
`i = 1, …, ⌊n⌋` (and not at all when `n < 1`, since the guard `1 <= n` fails
immediately), so we embed it as a fold over that range; the accumulation is
exact binary64 arithmetic on this domain. -/
def sumIterativeR (n : ℚ) : ℚ :=
  ((List.range' 1 ⌊n⌋.toNat).map (fun i => (i : ℚ))).foldl (· + ·) 0

/-- C10: for every number strictly below `1` — negative inputs included — the
loop body never executes and `sumIterative` returns the initial total `0`. -/
theorem sumIterativeR_eq_zero_below_one (n : ℚ) (h : n < 1) :
    sumIterativeR n = 0 := by
  have h1 : ⌊n⌋ < 1 := Int.floor_lt.mpr (by exact_mod_cast h)
  have h2 : ⌊n⌋.toNat = 0 := Int.toNat_eq_zero.mpr (by omega)
  unfold sumIterativeR
  rw [h2]
  rfl

/-- C10 witness: the loop returns `0` at the concrete negative input `-5`. -/
theorem sumIterativeR_eq_zero_below_one_witness :
    (-5 : ℚ) < 1 ∧ sumIterativeR (-5) = 0 :=
  ⟨by norm_num, sumIterativeR_eq_zero_below_one (-5) (by norm_num)⟩
